import Mathlib

/-!
Shallow embedding of the BCI dockerfile-generator image descriptors
(`src/bci_build/package.py`) and proofs about their derived properties.
-/

set_option maxHeartbeats 1000000

namespace BciBuild

/-- Values for the release-stage label of a BCI (`ReleaseStage`). -/
inductive ReleaseStage
  | beta
  | released
deriving DecidableEq, Repr

/-- Values of the image-type label of a BCI (`ImageType`). -/
inductive ImageType
  | sle_bci
  | application
deriving DecidableEq, Repr

/-- Options for how the image is built: from a Dockerfile or as a kiwi build
(`BuildType`). -/
inductive BuildType
  | docker
  | kiwi
deriving DecidableEq, Repr

/-- Package types supported by kiwi (`PackageType`). -/
inductive PackageType
  | delete
  | uninstall
  | bootstrap
  | image
deriving DecidableEq, Repr

/-- The `str()` value of a `PackageType` member. -/
def PackageType.str : PackageType → String
  | .delete => "delete"
  | .uninstall => "uninstall"
  | .bootstrap => "bootstrap"
  | .image => "image"

/-- Representation of a package in a kiwi build (`Package`), with the default
package type `IMAGE`. -/
structure Package where
  name : String
  pkg_type : PackageType := PackageType.image
deriving DecidableEq, Repr

/-- An entry of `package_list`: the Python code accepts a plain string or a
`Package` object and distinguishes them with `isinstance` checks. -/
inductive PkgEntry
  | plain (s : String)
  | pkg (p : Package)
deriving DecidableEq, Repr

/-- The `str()` value of a package-list entry: a plain string is itself, and
`Package.__str__` returns the package name. -/
def PkgEntry.toStr : PkgEntry → String
  | .plain s => s
  | .pkg p => p.name

/-- Optional version-formatting mode of a `Replacement`. -/
inductive ParseVersion
  | major
  | minor
  | patch
  | patch_update
  | offset
deriving DecidableEq, Repr

/-- A replacement rule via obs-service-replace_using_package_version
(`Replacement`). -/
structure Replacement where
  regex_in_dockerfile : String
  package_name : String
  parse_version : Option ParseVersion := none
deriving DecidableEq, Repr

/-- Contents of an extra file: Python accepts `str` or `bytes` values in
`extra_files`. -/
inductive FileContent
  | text (s : String)
  | binary (bs : List Nat)
deriving DecidableEq, Repr

/-- The fields of `BaseContainerImage`, with the defaults of the dataclass.
Dictionaries are embedded as association lists to keep insertion order, which
Python dictionaries preserve. -/
structure BaseFields where
  name : String
  pretty_name : String
  ibs_package : String
  sp_version : Nat
  release_stage : ReleaseStage
  from_image : Option String := some ""
  is_latest : Bool := false
  entrypoint : Option String := none
  env : List (String × String) := []
  replacements_via_service : List Replacement := []
  tech_preview : Bool := true
  extra_labels : List (String × String) := []
  package_list : List PkgEntry := []
  custom_end : String := ""
  config_sh_script : String := ""
  maintainer : String := "SUSE LLC (https://www.suse.com/)"
  extra_files : List (String × FileContent) := []
  additional_names : List String := []
  custom_labelprefix_end : String := ""
  custom_description : String := ""
  build_recipe_type : BuildType := BuildType.docker
deriving DecidableEq, Repr

/-- The extra fields of `LanguageStackContainer`. The version is embedded as a
string: Python accepts `str` or `int` and always renders it through `str()`.
The private field `_registry_prefix` defaults to `bci`. -/
structure LanguageStackFields where
  version : String := ""
  additional_versions : List String := []
  registryPfx : String := "bci"
deriving DecidableEq, Repr

/-- A container image descriptor, tagged by its concrete Python class:
`LanguageStackContainer`, `ApplicationStackContainer` (a subclass of the
former) or `OsContainer`. -/
inductive ContainerImage
  | language (base : BaseFields) (lang : LanguageStackFields)
  | application (base : BaseFields) (lang : LanguageStackFields)
  | os (base : BaseFields)
deriving DecidableEq, Repr

/-- The `BaseContainerImage` fields of any descriptor. -/
def ContainerImage.base : ContainerImage → BaseFields
  | .language b _ => b
  | .application b _ => b
  | .os b => b

/-- `BaseContainerImage.__post_init__`: rejects an empty package list and the
combination of a config.sh script with a custom Dockerfile end. -/
def base_post_init (b : BaseFields) : Except String Unit :=
  if b.package_list.isEmpty then
    Except.error ("No packages were added to " ++ b.pretty_name ++ ".")
  else if b.config_sh_script ≠ "" ∧ b.custom_end ≠ "" then
    Except.error "Cannot specify both a custom_end and a config.sh script! Use just config_sh_script."
  else Except.ok ()

/-- `LanguageStackContainer.__post_init__`: requires a version. It overrides
the base method and does not call it. -/
def language_post_init (l : LanguageStackFields) : Except String Unit :=
  if l.version = "" then
    Except.error "A language stack container requires a version"
  else Except.ok ()

/-- Dataclass construction: `__init__` assigns the fields and then runs the
most derived `__post_init__`. For `LanguageStackContainer` that is only the
version check; `ApplicationStackContainer` first forces `_registry_prefix` to
`suse` and then runs the `LanguageStackContainer` check via `super()`;
`OsContainer` inherits the base method unchanged. -/
def post_init : ContainerImage → Except String ContainerImage
  | .language b l =>
      match language_post_init l with
      | Except.error e => Except.error e
      | Except.ok _ => Except.ok (ContainerImage.language b l)
  | .application b l =>
      let l2 := { l with registryPfx := "suse" }
      match language_post_init l2 with
      | Except.error e => Except.error e
      | Except.ok _ => Except.ok (ContainerImage.application b l2)
  | .os b =>
      match base_post_init b with
      | Except.error e => Except.error e
      | Except.ok _ => Except.ok (ContainerImage.os b)

/-- The `version_label` of `OsContainer`. -/
def os_version_label : String := "%OS_VERSION_ID_SP%.%RELEASE%"

/-- The `version_label` property of a descriptor. -/
def ContainerImage.version_label : ContainerImage → String
  | .language _ l => l.version
  | .application _ l => l.version
  | .os _ => os_version_label

/-- One loop iteration of `LanguageStackContainer.build_tags`: the tags added
for a single published name. -/
def langTagsForName (pfx ver : String) (is_latest : Bool)
    (additional_versions : List String) (name : String) : List String :=
  [pfx ++ "/" ++ name ++ ":" ++ ver]
    ++ (if is_latest then [pfx ++ "/" ++ name ++ ":latest"] else [])
    ++ [pfx ++ "/" ++ name ++ ":" ++ ver ++ "-%RELEASE%"]
    ++ additional_versions.map (fun v => pfx ++ "/" ++ name ++ ":" ++ v)

/-- One loop iteration of `OsContainer.build_tags`: the tags added for a
single published name. -/
def osTagsForName (is_latest : Bool) (name : String) : List String :=
  ["bci/bci-" ++ name ++ ":%OS_VERSION_ID_SP%",
   "bci/bci-" ++ name ++ ":" ++ os_version_label]
    ++ (if is_latest then ["bci/bci-" ++ name ++ ":latest"] else [])

/-- The `build_tags` property: the loop over `[self.name] + additional_names`
accumulating tags is the join of the per-name tag lists. -/
def ContainerImage.build_tags : ContainerImage → List String
  | .language b l =>
      ((b.name :: b.additional_names).map
        (langTagsForName l.registryPfx l.version b.is_latest l.additional_versions)).flatten
  | .application b l =>
      ((b.name :: b.additional_names).map
        (langTagsForName l.registryPfx l.version b.is_latest l.additional_versions)).flatten
  | .os b =>
      ((b.name :: b.additional_names).map (osTagsForName b.is_latest)).flatten

/-- The `reference` property, `registry.suse.com/{build_tags[0]}`. Python
indexing of an empty list raises, embedded here as `none`. -/
def ContainerImage.reference (ci : ContainerImage) : Option String :=
  ci.build_tags.head?.map (fun t => "registry.suse.com/" ++ t)

/-- The `description` property: the custom description when set (non-empty,
by Python truthiness of `or`), else text templated from the pretty name. -/
def description (b : BaseFields) : String :=
  if b.custom_description ≠ "" then b.custom_description
  else "Image containing " ++ b.pretty_name ++ " based on the SLE Base Container Image."

/-- The `title` property, always templated from the pretty name. -/
def title (b : BaseFields) : String :=
  "SLE BCI " ++ b.pretty_name ++ " Container Image"

/-- True on a `Package` object whose type is not the default `IMAGE` type;
the Dockerfile package rendering rejects exactly these entries. -/
def nonImagePkg : PkgEntry → Bool
  | .plain _ => false
  | .pkg p => decide (p.pkg_type ≠ PackageType.image)

/-- `BaseContainerImage.packages`: the package names joined for `zypper in`,
raising on the first entry with a kiwi-only package type. -/
def packages (b : BaseFields) : Except String String :=
  match b.package_list.find? nonImagePkg with
  | some e =>
      Except.error ("Cannot add a package of type "
        ++ (match e with | .plain _ => "" | .pkg p => p.pkg_type.str)
        ++ " into a Dockerfile based build.")
  | none => Except.ok (String.intercalate " " (b.package_list.map PkgEntry.toStr))

/-- `create_pkg_filter_func` inside `kiwi_packages`: a plain string counts as
an `IMAGE` package, a `Package` object is compared by its type. -/
def pkg_filter (t : PackageType) : PkgEntry → Bool
  | .plain _ => decide (t = PackageType.image)
  | .pkg p => decide (p.pkg_type = t)

/-- The `PKG_TYPES` tuple of `kiwi_packages`, in its fixed order. -/
def PKG_TYPES : List PackageType :=
  [PackageType.delete, PackageType.bootstrap, PackageType.image, PackageType.uninstall]

/-- One `<packages>` element of `kiwi_packages` for a phase and its entries. -/
def kiwi_block (t : PackageType) (pl : List PkgEntry) : String :=
  "  <packages type=\"" ++ t.str ++ "\">\n    "
    ++ String.intercalate "\n    "
        (pl.map (fun p => "<package name=\"" ++ p.toStr ++ "\"/>"))
    ++ "\n  </packages>\n"

/-- `BaseContainerImage.kiwi_packages`: for every phase in `PKG_TYPES` order,
append one block when the filtered list is non-empty. -/
def kiwi_packages (b : BaseFields) : String :=
  PKG_TYPES.foldl
    (fun res t =>
      if 0 < (b.package_list.filter (pkg_filter t)).length
      then res ++ kiwi_block t (b.package_list.filter (pkg_filter t))
      else res)
    ""

/-- The body of the generated `config.sh`, with the copyright year spliced in
the way `datetime.datetime.now()` is in the source. -/
def config_sh_full (year script : String) : String :=
  "#!/bin/bash -e\n\n# Copyright (c) " ++ year ++ " SUSE LLC, Nuernberg, Germany.\n"
    ++ "#\n"
    ++ "# All modifications and additions to the file contributed by third parties\n"
    ++ "# remain the property of their copyright owners, unless otherwise agreed\n"
    ++ "# upon. The license for this file, and modifications and additions to the\n"
    ++ "# file, is the same license as for the pristine package itself (unless the\n"
    ++ "# license for the pristine package is not an Open Source License, in which\n"
    ++ "# case the license is the MIT License). An \"Open Source License\" is a\n"
    ++ "# license that conforms to the Open Source Definition (Version 1.9)\n"
    ++ "# published by the Open Source Initiative.\n\n"
    ++ "test -f /.kconfig && . /.kconfig\n"
    ++ "test -f /.profile && . /.profile\n\n"
    ++ "echo \"Configure image: [$kiwi_iname]...\"\n\n"
    ++ "#======================================\n"
    ++ "# Setup baseproduct link\n"
    ++ "#--------------------------------------\n"
    ++ "if [ ! -e /etc/products.d/baseproduct ]; then\n"
    ++ "    suseSetupProduct\nfi\n\n"
    ++ "#======================================\n"
    ++ "# Import repositories\x27 keys\n"
    ++ "#--------------------------------------\n"
    ++ "suseImportBuildKey\n\n"
    ++ script ++ "\n\nexit 0\n"

/-- `BaseContainerImage.config_sh`: empty when no script is set, an error when
only a `custom_end` is set, and the full generated script otherwise. -/
def config_sh (b : BaseFields) (year : String) : Except String String :=
  if b.config_sh_script = "" then
    if b.custom_end ≠ "" then
      Except.error "This image cannot be build as a kiwi image, it has a `custom_end` set."
    else Except.ok ""
  else Except.ok (config_sh_full year b.config_sh_script)

/-- Look up a file in a directory, embedded as an association list where the
head shadows later entries. -/
def fsLookup (fs : List (String × FileContent)) (n : String) : Option FileContent :=
  (fs.find? (fun kv => kv.1 == n)).map Prod.snd

/-- Apply a list of file writes to a directory: each write shadows the
previous content of its name. -/
def applyWrites (fs ws : List (String × FileContent)) : List (String × FileContent) :=
  ws.foldl (fun acc w => w :: acc) fs

/-- `BaseContainerImage.write_files_to_folder`. The rendered Dockerfile, kiwi
description and `_service` contents come from the external templates and are
passed in as parameters. The result is the returned filename list together
with the writes performed, in task-creation order (the tasks are awaited
together with `asyncio.gather` and touch pairwise distinct names in every
non-degenerate run). -/
def write_files_to_folder (ci : ContainerImage)
    (renderedDockerfile renderedKiwi renderedService year : String)
    (fs : List (String × FileContent)) :
    Except String (List String × List (String × FileContent)) :=
  let b := ci.base
  let recipeE : Except String (List String × List (String × FileContent)) :=
    match b.build_recipe_type with
    | BuildType.docker =>
        Except.ok (["Dockerfile"],
          [("Dockerfile", FileContent.text renderedDockerfile)])
    | BuildType.kiwi =>
        match config_sh b year with
        | Except.error e => Except.error e
        | Except.ok cs =>
            if cs ≠ "" then
              Except.ok ([b.ibs_package ++ ".kiwi", "config.sh"],
                [(b.ibs_package ++ ".kiwi", FileContent.text renderedKiwi),
                 ("config.sh", FileContent.text cs)])
            else
              Except.ok ([b.ibs_package ++ ".kiwi"],
                [(b.ibs_package ++ ".kiwi", FileContent.text renderedKiwi)])
  match recipeE with
  | Except.error e => Except.error e
  | Except.ok recipe =>
      let changesName := b.ibs_package ++ ".changes"
      let changes :=
        if (fsLookup fs changesName).isSome then
          (([] : List String), ([] : List (String × FileContent)))
        else ([changesName], [(changesName, FileContent.text "")])
      Except.ok ("_service" :: (recipe.1 ++ changes.1 ++ b.extra_files.map Prod.fst),
        recipe.2 ++ [("_service", FileContent.text renderedService)]
          ++ changes.2 ++ b.extra_files)

/-- The number of additional version aliases of a descriptor: the
`additional_versions` field of a language or application stack; an
`OsContainer` has none. -/
def ContainerImage.aliases : ContainerImage → Nat
  | .language _ l => l.additional_versions.length
  | .application _ l => l.additional_versions.length
  | .os _ => 0

/-- Rendering of the kiwi package list following the words of the spec:
partition the package list into the four fixed phases, render each non-empty
partition as its own grouped block and skip empty phases entirely. -/
def kiwi_packages_spec_blocks (b : BaseFields) : List String :=
  (PKG_TYPES.filter (fun t => !(b.package_list.filter (pkg_filter t)).isEmpty)).map
    (fun t => kiwi_block t (b.package_list.filter (pkg_filter t)))

/-- The last character of a string, if any. -/
def lastCh (s : String) : Option Char := s.data.getLast?

/-- A language-stack descriptor given an empty package list. -/
def langNoPackages : ContainerImage :=
  ContainerImage.language
    { name := "x", pretty_name := "X", ibs_package := "x", sp_version := 3,
      release_stage := ReleaseStage.beta, package_list := [] }
    { version := "1.0" }

/-- A language-stack descriptor given both a custom Dockerfile tail and a
config.sh script. -/
def langBothTails : ContainerImage :=
  ContainerImage.language
    { name := "y", pretty_name := "Y", ibs_package := "y", sp_version := 3,
      release_stage := ReleaseStage.beta, package_list := [PkgEntry.plain "a"],
      custom_end := "EXPOSE 80", config_sh_script := "echo hi" }
    { version := "1.0" }

/-- Concrete base fields whose package list holds a plain string and a default
typed package. -/
def flatGood : BaseFields :=
  { name := "g", pretty_name := "G", ibs_package := "g", sp_version := 3,
    release_stage := ReleaseStage.released,
    package_list := [PkgEntry.plain "a", PkgEntry.pkg { name := "b" }] }

/-- Concrete base fields whose package list holds a bootstrap-typed package. -/
def flatBad : BaseFields :=
  { flatGood with package_list :=
      [PkgEntry.plain "a",
       PkgEntry.pkg { name := "b", pkg_type := PackageType.bootstrap }] }

/-- Concrete base fields with packages in three different kiwi phases. -/
def kiwiMixed : BaseFields :=
  { name := "m", pretty_name := "M", ibs_package := "m", sp_version := 3,
    release_stage := ReleaseStage.released, build_recipe_type := BuildType.kiwi,
    package_list :=
      [PkgEntry.pkg { name := "rpm-ndb", pkg_type := PackageType.bootstrap },
       PkgEntry.plain "curl",
       PkgEntry.pkg { name := "grep", pkg_type := PackageType.delete }] }

/-- A descriptor whose extra_files holds a file named like its changelog. -/
def collisionBase : BaseFields :=
  { name := "foo", pretty_name := "Foo", ibs_package := "foo", sp_version := 4,
    release_stage := ReleaseStage.beta, package_list := [PkgEntry.plain "a"],
    extra_files := [("foo.changes", FileContent.text "new")] }

/-- The OsContainer built from `collisionBase`. -/
def collisionImage : ContainerImage := ContainerImage.os collisionBase

/-- A destination directory already holding the changelog of `collisionBase`. -/
def collisionDir : List (String × FileContent) :=
  [("foo.changes", FileContent.text "old")]

/-- A plain Dockerfile-built OsContainer base. -/
def plainOsBase : BaseFields :=
  { name := "w", pretty_name := "W", ibs_package := "w", sp_version := 3,
    release_stage := ReleaseStage.released, package_list := [PkgEntry.plain "a"] }

/-- The OsContainer built from `plainOsBase`. -/
def plainOsImage : ContainerImage := ContainerImage.os plainOsBase

/-- A destination directory already holding changelog history for
`plainOsBase`. -/
def historyDir : List (String × FileContent) :=
  [("w.changes", FileContent.text "history")]

/-- A kiwi-built descriptor with a config.sh script and one extra file. -/
def kiwiScriptImage : ContainerImage :=
  ContainerImage.os
    { name := "k", pretty_name := "K", ibs_package := "k", sp_version := 3,
      release_stage := ReleaseStage.released,
      build_recipe_type := BuildType.kiwi,
      config_sh_script := "echo hi",
      package_list := [PkgEntry.plain "a"],
      extra_files := [("_constraints", FileContent.text "c")] }

/-- Concrete base fields with every overridable string field set. -/
def descOverridden : BaseFields :=
  { name := "d", pretty_name := "Foo", ibs_package := "d", sp_version := 3,
    release_stage := ReleaseStage.beta, package_list := [PkgEntry.plain "a"],
    custom_description := "My Title", custom_labelprefix_end := "My Title" }

/-- Same fields as `descOverridden` but without a custom description. -/
def descPlain : BaseFields :=
  { descOverridden with custom_description := "" }

/-- Language-stack fields with the default registry qualifier. -/
def c7Lang : LanguageStackFields := { version := "1.0" }

/-- The application-stack descriptor produced by constructing
`ApplicationStackContainer` over `plainOsBase` and `c7Lang`. -/
def appW : ContainerImage :=
  ContainerImage.application plainOsBase
    { version := "1.0", additional_versions := [], registryPfx := "suse" }

/-! ## Helper lemmas -/

theorem langTagsForName_length (pfx ver : String) (lat : Bool)
    (avs : List String) (name : String) :
    (langTagsForName pfx ver lat avs name).length
      = 1 + (if lat then 1 else 0) + 1 + avs.length := by
  cases lat <;> simp [langTagsForName] <;> omega

theorem osTagsForName_length (lat : Bool) (name : String) :
    (osTagsForName lat name).length = 1 + (if lat then 1 else 0) + 1 + 0 := by
  cases lat <;> simp [osTagsForName]

theorem flatten_map_const_length {α β : Type} (f : α → List β) (c : Nat)
    (h : ∀ a, (f a).length = c) :
    ∀ l : List α, ((l.map f).flatten).length = l.length * c
  | [] => by simp
  | a :: l => by
      simp only [List.map_cons, List.flatten_cons, List.length_append,
        List.length_cons, flatten_map_const_length f c h l, h a, Nat.succ_mul]
      ring

theorem build_tags_length (ci : ContainerImage) :
    ci.build_tags.length
      = (1 + (if ci.base.is_latest then 1 else 0) + 1 + ci.aliases)
          * (1 + ci.base.additional_names.length) := by
  cases ci with
  | language b l =>
      have h := flatten_map_const_length
        (langTagsForName l.registryPfx l.version b.is_latest l.additional_versions)
        (1 + (if b.is_latest then 1 else 0) + 1 + l.additional_versions.length)
        (langTagsForName_length l.registryPfx l.version b.is_latest l.additional_versions)
        (b.name :: b.additional_names)
      simp only [ContainerImage.build_tags, ContainerImage.base, ContainerImage.aliases]
      rw [h]
      simp only [List.length_cons]
      ring
  | application b l =>
      have h := flatten_map_const_length
        (langTagsForName l.registryPfx l.version b.is_latest l.additional_versions)
        (1 + (if b.is_latest then 1 else 0) + 1 + l.additional_versions.length)
        (langTagsForName_length l.registryPfx l.version b.is_latest l.additional_versions)
        (b.name :: b.additional_names)
      simp only [ContainerImage.build_tags, ContainerImage.base, ContainerImage.aliases]
      rw [h]
      simp only [List.length_cons]
      ring
  | os b =>
      have h := flatten_map_const_length (osTagsForName b.is_latest)
        (1 + (if b.is_latest then 1 else 0) + 1 + 0)
        (osTagsForName_length b.is_latest) (b.name :: b.additional_names)
      simp only [ContainerImage.build_tags, ContainerImage.base, ContainerImage.aliases]
      rw [h]
      simp only [List.length_cons]
      ring

/-! ## Claim theorems -/

/-- C4: for every descriptor, the number of build tags equals
(1 + [1 if the is-latest flag is set else 0] + 1 + number of additional
version aliases) multiplied by the number of names (the primary name plus
each additional name). -/
theorem build_tags_count (ci : ContainerImage) :
    ci.build_tags.length
      = (1 + (if ci.base.is_latest then 1 else 0) + 1 + ci.aliases)
          * (1 + ci.base.additional_names.length) :=
  build_tags_length ci

/-- C10: for every descriptor of any concrete variant the build-tag list is
non-empty, of length at least two, and the reference property is defined and
equals registry.suse.com/ followed by the first build tag. -/
theorem reference_well_defined (ci : ContainerImage) :
    ∃ t rest, ci.build_tags = t :: rest ∧ 2 ≤ ci.build_tags.length ∧
      ci.reference = some ("registry.suse.com/" ++ t) := by
  have h2 : 2 ≤ ci.build_tags.length := by
    rw [build_tags_length]
    have hpos : 0 < 1 + ci.base.additional_names.length := by omega
    calc 2 ≤ 1 + (if ci.base.is_latest then 1 else 0) + 1 + ci.aliases := by omega
    _ ≤ (1 + (if ci.base.is_latest then 1 else 0) + 1 + ci.aliases)
          * (1 + ci.base.additional_names.length) :=
        Nat.le_mul_of_pos_right _ hpos
  cases hbt : ci.build_tags with
  | nil => rw [hbt] at h2; simp at h2
  | cons t rest =>
      rw [hbt] at h2
      refine ⟨t, rest, rfl, h2, ?_⟩
      simp [ContainerImage.reference, hbt]

/-- C3: for every descriptor, the flat (Dockerfile-style) package-list
rendering raises exactly when the package list holds an entry tagged with an
install phase other than the default image phase, and otherwise returns the
package names joined by single spaces in list order. -/
theorem flat_packages_spec (b : BaseFields) :
    ((∃ p : Package, PkgEntry.pkg p ∈ b.package_list ∧ p.pkg_type ≠ PackageType.image) →
      ∃ msg, packages b = Except.error msg) ∧
    ((∀ p : Package, PkgEntry.pkg p ∈ b.package_list → p.pkg_type = PackageType.image) →
      packages b = Except.ok (String.intercalate " " (b.package_list.map PkgEntry.toStr))) := by
  constructor
  · rintro ⟨p, hp, hne⟩
    have hfind : b.package_list.find? nonImagePkg ≠ none := by
      intro hnone
      rw [List.find?_eq_none] at hnone
      exact hnone _ hp (by simp [nonImagePkg, hne])
    cases hfound : b.package_list.find? nonImagePkg with
    | none => exact absurd hfound hfind
    | some e =>
        cases e with
        | plain s =>
            exact ⟨"Cannot add a package of type " ++ ""
                ++ " into a Dockerfile based build.",
              by unfold packages; rw [hfound]⟩
        | pkg q =>
            exact ⟨"Cannot add a package of type " ++ q.pkg_type.str
                ++ " into a Dockerfile based build.",
              by unfold packages; rw [hfound]⟩
  · intro hall
    have hnone : b.package_list.find? nonImagePkg = none := by
      rw [List.find?_eq_none]
      intro e he hbad
      cases e with
      | plain s => simp [nonImagePkg] at hbad
      | pkg p =>
          simp [nonImagePkg] at hbad
          exact hbad (hall p he)
    simp [packages, hnone]

/-- C3 witness: a descriptor with a bootstrap-typed package raises, a
descriptor with only image-phase entries renders the joined names. -/
theorem flat_packages_spec_witness :
    (∃ msg, packages flatBad = Except.error msg) ∧
    packages flatGood
      = Except.ok (String.intercalate " " (flatGood.package_list.map PkgEntry.toStr)) :=
  ⟨(flat_packages_spec flatBad).1
      ⟨{ name := "b", pkg_type := PackageType.bootstrap }, by decide, by decide⟩,
   (flat_packages_spec flatGood).2 (fun p hp => by
      simp [flatGood] at hp
      subst hp
      rfl)⟩

/-- C9: a package-list entry given as a plain string belongs to the default
image install phase: the kiwi phase filter keeps it exactly in the image
phase, and the flat rendering never rejects it. -/
theorem plain_string_image_phase (b : BaseFields) (s : String)
    (h : PkgEntry.plain s ∈ b.package_list) :
    PkgEntry.plain s ∈ b.package_list.filter (pkg_filter PackageType.image) ∧
    (∀ t, t ≠ PackageType.image →
      PkgEntry.plain s ∉ b.package_list.filter (pkg_filter t)) ∧
    nonImagePkg (PkgEntry.plain s) = false := by
  refine ⟨?_, ?_, rfl⟩
  · rw [List.mem_filter]
    exact ⟨h, by simp [pkg_filter]⟩
  · intro t ht hmem
    rw [List.mem_filter] at hmem
    have h2 := hmem.2
    simp [pkg_filter] at h2
    exact ht h2

/-- C9 witness: the plain entry of a concrete descriptor sits in the
image-phase partition and is not rejected by the flat rendering. -/
theorem plain_string_image_phase_witness :
    PkgEntry.plain "a" ∈ flatGood.package_list.filter (pkg_filter PackageType.image) ∧
    nonImagePkg (PkgEntry.plain "a") = false :=
  ⟨(plain_string_image_phase flatGood "a" (by decide)).1,
   (plain_string_image_phase flatGood "a" (by decide)).2.2⟩

/-- C8 amended: the description equals the custom description when one is set
and otherwise the text templated from the pretty name; the title is always
the text templated from the pretty name and has no override, so any two
descriptors sharing a pretty name share a title. -/
theorem title_description_defaults (b : BaseFields) :
    (b.custom_description ≠ "" → description b = b.custom_description) ∧
    (b.custom_description = "" →
      description b = "Image containing " ++ b.pretty_name
        ++ " based on the SLE Base Container Image.") ∧
    title b = "SLE BCI " ++ b.pretty_name ++ " Container Image" ∧
    (∀ b2 : BaseFields, b2.pretty_name = b.pretty_name → title b2 = title b) :=
  ⟨fun h => by simp [description, h],
   fun h => by simp [description, h],
   rfl,
   fun b2 h => by simp [title, h]⟩

/-- C8 witness: the custom description of a concrete descriptor is returned
verbatim, and the description of one without a custom description is the
templated text. -/
theorem title_description_defaults_witness :
    description descOverridden = "My Title" ∧
    description descPlain
      = "Image containing Foo based on the SLE Base Container Image." :=
  ⟨((title_description_defaults descOverridden).1 (by decide)).trans rfl,
   ((title_description_defaults descPlain).2.1 rfl).trans (by decide)⟩

/-- C8 counterexample: a concrete descriptor with every overridable string
field set to a would-be title still carries the templated title, so the title
cannot be overridden as the claim states. -/
theorem title_not_overridable :
    descOverridden.custom_description = "My Title" ∧
    description descOverridden = "My Title" ∧
    title descOverridden = "SLE BCI Foo Container Image" ∧
    title descOverridden ≠ "My Title" := by
  refine ⟨rfl, ?_, rfl, by decide⟩
  decide

/-- C1 (code bug): LanguageStackContainer overrides the base post-init
validation without calling it, so a language-stack descriptor with an empty
package list, or with both tail fields set, constructs without an error even
though the base validation rejects exactly these inputs. -/
theorem construction_skips_base_checks :
    post_init langNoPackages = Except.ok langNoPackages ∧
    base_post_init langNoPackages.base
      = Except.error "No packages were added to X." ∧
    post_init langBothTails = Except.ok langBothTails ∧
    (∃ msg, base_post_init langBothTails.base = Except.error msg) :=
  ⟨rfl, rfl, rfl, ⟨_, rfl⟩⟩

theorem langTagsForName_qualified (pfx ver : String) (lat : Bool)
    (avs : List String) (name : String) :
    ∀ t ∈ langTagsForName pfx ver lat avs name, ∃ r, t = pfx ++ "/" ++ r := by
  intro t ht
  cases lat with
  | false =>
      simp [langTagsForName] at ht
      rcases ht with h | h | ⟨v, hv, h⟩
      · exact ⟨name ++ ":" ++ ver, by rw [h]; simp [String.append_assoc]⟩
      · exact ⟨name ++ ":" ++ ver ++ "-%RELEASE%", by rw [h]; simp [String.append_assoc]⟩
      · exact ⟨name ++ ":" ++ v, by rw [← h]; simp [String.append_assoc]⟩
  | true =>
      simp [langTagsForName] at ht
      rcases ht with h | h | h | ⟨v, hv, h⟩
      · exact ⟨name ++ ":" ++ ver, by rw [h]; simp [String.append_assoc]⟩
      · exact ⟨name ++ ":latest", by rw [h]; simp [String.append_assoc]⟩
      · exact ⟨name ++ ":" ++ ver ++ "-%RELEASE%", by rw [h]; simp [String.append_assoc]⟩
      · exact ⟨name ++ ":" ++ v, by rw [← h]; simp [String.append_assoc]⟩

theorem build_tags_qualified_lang (b : BaseFields) (l : LanguageStackFields) :
    ∀ t ∈ (ContainerImage.language b l).build_tags,
      ∃ r, t = l.registryPfx ++ "/" ++ r := by
  intro t ht
  simp only [ContainerImage.build_tags, List.mem_flatten, List.mem_map] at ht
  obtain ⟨ts, ⟨nm, _, hts⟩, hmem⟩ := ht
  exact langTagsForName_qualified _ _ _ _ nm t (hts ▸ hmem)

theorem build_tags_qualified_app (b : BaseFields) (l : LanguageStackFields) :
    ∀ t ∈ (ContainerImage.application b l).build_tags,
      ∃ r, t = l.registryPfx ++ "/" ++ r := by
  intro t ht
  simp only [ContainerImage.build_tags, List.mem_flatten, List.mem_map] at ht
  obtain ⟨ts, ⟨nm, _, hts⟩, hmem⟩ := ht
  exact langTagsForName_qualified _ _ _ _ nm t (hts ▸ hmem)

/-- C7: every build tag of a language-stack descriptor (whose private registry
qualifier field holds its default value) starts with bci/, and every build tag
of a constructed application-stack descriptor starts with suse/. -/
theorem registry_qualifiers (b : BaseFields) (l : LanguageStackFields)
    (d : ContainerImage) :
    (l.registryPfx = "bci" →
      ∀ t ∈ (ContainerImage.language b l).build_tags, ∃ r, t = "bci/" ++ r) ∧
    (post_init (ContainerImage.application b l) = Except.ok d →
      ∀ t ∈ d.build_tags, ∃ r, t = "suse/" ++ r) := by
  constructor
  · intro hb t ht
    obtain ⟨r, hr⟩ := build_tags_qualified_lang b l t ht
    refine ⟨r, ?_⟩
    rw [hr, hb, show ("bci" ++ "/" : String) = "bci/" by decide]
  · intro hpost t ht
    by_cases hv : l.version = ""
    · simp [post_init, language_post_init, hv] at hpost
    · simp only [post_init, language_post_init] at hpost
      rw [if_neg hv] at hpost
      simp only [Except.ok.injEq] at hpost
      subst hpost
      obtain ⟨r, hr⟩ :=
        build_tags_qualified_app b { l with registryPfx := "suse" } t ht
      refine ⟨r, ?_⟩
      rw [hr, show ({ l with registryPfx := "suse" } :
          LanguageStackFields).registryPfx = "suse" from rfl,
        show ("suse" ++ "/" : String) = "suse/" by decide]

/-- C7 witness: concrete tags of a concrete language-stack and a concrete
constructed application-stack descriptor carry the two qualifiers. -/
theorem registry_qualifiers_witness :
    (∃ r, ("bci/w:1.0" : String) = "bci/" ++ r) ∧
    (∃ r, ("suse/w:1.0" : String) = "suse/" ++ r) :=
  ⟨(registry_qualifiers plainOsBase c7Lang appW).1 rfl "bci/w:1.0" (by decide),
   (registry_qualifiers plainOsBase c7Lang appW).2 rfl "suse/w:1.0" (by decide)⟩

theorem string_foldl_append :
    ∀ (l : List String) (a : String),
      l.foldl (fun x y => x ++ y) a = a ++ l.foldl (fun x y => x ++ y) ""
  | [], a => by simp [String.append_empty]
  | s :: l, a => by
      simp only [List.foldl_cons]
      rw [string_foldl_append l (a ++ s), string_foldl_append l ("" ++ s),
        String.empty_append, String.append_assoc]

theorem string_join_cons (s : String) (l : List String) :
    String.join (s :: l) = s ++ String.join l := by
  simp only [String.join, List.foldl_cons]
  rw [string_foldl_append l ("" ++ s), String.empty_append]

theorem kiwi_packages_foldl (b : BaseFields) :
    ∀ (ts : List PackageType) (init : String),
      ts.foldl
          (fun res t =>
            if 0 < (b.package_list.filter (pkg_filter t)).length
            then res ++ kiwi_block t (b.package_list.filter (pkg_filter t))
            else res)
          init
        = init ++ String.join
            ((ts.filter
                (fun t => !(b.package_list.filter (pkg_filter t)).isEmpty)).map
              (fun t => kiwi_block t (b.package_list.filter (pkg_filter t))))
  | [], init => by simp [String.join, String.append_empty]
  | t :: ts, init => by
      simp only [List.foldl_cons, List.filter_cons]
      by_cases h : (b.package_list.filter (pkg_filter t)).isEmpty
      · have hlen : ¬ 0 < (b.package_list.filter (pkg_filter t)).length := by
          rw [List.isEmpty_iff] at h
          simp [h]
        rw [if_neg hlen]
        simp only [h, Bool.not_true, if_neg]
        exact kiwi_packages_foldl b ts init
      · have hne : b.package_list.filter (pkg_filter t) ≠ [] := by
          simpa [List.isEmpty_iff] using h
        have hlen : 0 < (b.package_list.filter (pkg_filter t)).length :=
          List.length_pos.mpr hne
        rw [if_pos hlen]
        have hb : (!(b.package_list.filter (pkg_filter t)).isEmpty) = true := by
          simpa using h
        simp only [hb, if_pos, List.map_cons]
        rw [string_join_cons,
          kiwi_packages_foldl b ts
            (init ++ kiwi_block t (b.package_list.filter (pkg_filter t))),
          String.append_assoc]

/-- C5: the kiwi package rendering partitions the package list into the four
fixed phases (every entry matches exactly one phase filter), and the rendered
string is the concatenation, in the fixed phase order, of one grouped block
per non-empty phase holding exactly the packages of that phase in their
original relative order, with no block for an empty phase. -/
theorem kiwi_packages_blocks (b : BaseFields) :
    kiwi_packages b = String.join (kiwi_packages_spec_blocks b) ∧
    ∀ e ∈ b.package_list,
      (PKG_TYPES.filter (fun t => pkg_filter t e)).length = 1 := by
  constructor
  · rw [kiwi_packages, kiwi_packages_foldl b PKG_TYPES "", String.empty_append]
    rfl
  · intro e _
    cases e with
    | plain s => rfl
    | pkg p =>
        cases p with
        | mk nm ty => cases ty <;> rfl

/-- C5 witness: the rendering of a concrete three-phase descriptor equals its
per-phase block concatenation, and its plain entry matches exactly one phase. -/
theorem kiwi_packages_blocks_witness :
    kiwi_packages kiwiMixed = String.join (kiwi_packages_spec_blocks kiwiMixed) ∧
    (PKG_TYPES.filter (fun t => pkg_filter t (PkgEntry.plain "curl"))).length = 1 :=
  ⟨(kiwi_packages_blocks kiwiMixed).1,
   (kiwi_packages_blocks kiwiMixed).2 (PkgEntry.plain "curl") (by decide)⟩

theorem config_sh_full_ne_empty (year script : String) :
    config_sh_full year script ≠ "" := by
  intro h
  have hd := congrArg (fun s : String => s.data.head?) h
  simp only [config_sh_full, String.data_append, List.head?_append] at hd
  rw [show ("#!/bin/bash -e\n\n# Copyright (c) " : String).data.head?
      = some (Char.ofNat 35) from rfl] at hd
  simp [Option.or] at hd

theorem applyWrites_append (fs ws1 ws2 : List (String × FileContent)) :
    applyWrites fs (ws1 ++ ws2) = applyWrites (applyWrites fs ws1) ws2 := by
  simp [applyWrites, List.foldl_append]

theorem fsLookup_applyWrites_of_miss (n : String) :
    ∀ (ws fs : List (String × FileContent)), (∀ w ∈ ws, w.1 ≠ n) →
      fsLookup (applyWrites fs ws) n = fsLookup fs n
  | [], fs, _ => rfl
  | w :: ws, fs, h => by
      have hw : w.1 ≠ n := h w (List.mem_cons_self w ws)
      have ih := fsLookup_applyWrites_of_miss n ws (w :: fs)
        (fun x hx => h x (List.mem_cons_of_mem w hx))
      simp only [applyWrites, List.foldl_cons] at ih ⊢
      rw [ih]
      have hbeq : (w.1 == n) = false := beq_eq_false_iff_ne.mpr hw
      simp [fsLookup, List.find?_cons, hbeq]

theorem fsLookup_applyWrites_hit (n : String) (c : FileContent)
    (ws2 fs : List (String × FileContent)) (h : ∀ w ∈ ws2, w.1 ≠ n) :
    fsLookup (applyWrites fs ((n, c) :: ws2)) n = some c := by
  have happ : applyWrites fs ((n, c) :: ws2) = applyWrites ((n, c) :: fs) ws2 := by
    simp [applyWrites]
  rw [happ, fsLookup_applyWrites_of_miss n ws2 ((n, c) :: fs) h]
  simp [fsLookup, List.find?_cons]

theorem lastCh_changes (a : String) : lastCh (a ++ ".changes") = some 's' := by
  have h : lastCh (a ++ ".changes")
      = (".changes" : String).data.getLast?.or a.data.getLast? := by
    simp [lastCh, String.data_append, List.getLast?_append]
  rw [h, show (".changes" : String).data.getLast? = some 's' from rfl]
  rfl

theorem lastCh_kiwi (a : String) : lastCh (a ++ ".kiwi") = some 'i' := by
  have h : lastCh (a ++ ".kiwi")
      = (".kiwi" : String).data.getLast?.or a.data.getLast? := by
    simp [lastCh, String.data_append, List.getLast?_append]
  rw [h, show (".kiwi" : String).data.getLast? = some 'i' from rfl]
  rfl

theorem ne_of_lastCh {s t : String} (h : lastCh s ≠ lastCh t) : s ≠ t :=
  fun he => h (congrArg lastCh he)

theorem changes_ne_dockerfile (a : String) : a ++ ".changes" ≠ "Dockerfile" :=
  ne_of_lastCh (by rw [lastCh_changes]; decide)

theorem changes_ne_service (a : String) : a ++ ".changes" ≠ "_service" :=
  ne_of_lastCh (by rw [lastCh_changes]; decide)

theorem changes_ne_configsh (a : String) : a ++ ".changes" ≠ "config.sh" :=
  ne_of_lastCh (by rw [lastCh_changes]; decide)

theorem changes_ne_kiwi (a b : String) : a ++ ".changes" ≠ b ++ ".kiwi" :=
  ne_of_lastCh (by rw [lastCh_changes, lastCh_kiwi]; decide)

theorem write_files_ok_eq (ci : ContainerImage) (rd rk rs yr : String)
    (fs : List (String × FileContent)) (files : List String)
    (writes : List (String × FileContent))
    (h : write_files_to_folder ci rd rk rs yr fs = Except.ok (files, writes)) :
    ∃ rnames rwrites,
      ((ci.base.build_recipe_type = BuildType.docker ∧
          rnames = ["Dockerfile"] ∧
          rwrites = [("Dockerfile", FileContent.text rd)]) ∨
        (ci.base.build_recipe_type = BuildType.kiwi ∧
          ci.base.config_sh_script ≠ "" ∧
          rnames = [ci.base.ibs_package ++ ".kiwi", "config.sh"] ∧
          rwrites = [(ci.base.ibs_package ++ ".kiwi", FileContent.text rk),
            ("config.sh",
              FileContent.text (config_sh_full yr ci.base.config_sh_script))]) ∨
        (ci.base.build_recipe_type = BuildType.kiwi ∧
          ci.base.config_sh_script = "" ∧ ci.base.custom_end = "" ∧
          rnames = [ci.base.ibs_package ++ ".kiwi"] ∧
          rwrites = [(ci.base.ibs_package ++ ".kiwi", FileContent.text rk)])) ∧
      files = "_service" :: (rnames
          ++ (if (fsLookup fs (ci.base.ibs_package ++ ".changes")).isSome then []
              else [ci.base.ibs_package ++ ".changes"])
          ++ ci.base.extra_files.map Prod.fst) ∧
      writes = rwrites ++ [("_service", FileContent.text rs)]
          ++ (if (fsLookup fs (ci.base.ibs_package ++ ".changes")).isSome then []
              else [(ci.base.ibs_package ++ ".changes", FileContent.text "")])
          ++ ci.base.extra_files := by
  cases hbt : ci.base.build_recipe_type with
  | docker =>
      by_cases hc : (fsLookup fs (ci.base.ibs_package ++ ".changes")).isSome = true
      all_goals
        simp [write_files_to_folder, hbt, hc] at h
      all_goals
        refine ⟨["Dockerfile"], [("Dockerfile", FileContent.text rd)],
          Or.inl ⟨rfl, rfl, rfl⟩, ?_, ?_⟩
      · rw [← h.1]; simp [hc]
      · rw [← h.2]; simp [hc]
      · rw [← h.1]; simp [hc]
      · rw [← h.2]; simp [hc]
  | kiwi =>
      by_cases hs : ci.base.config_sh_script = ""
      · by_cases hce : ci.base.custom_end = ""
        · by_cases hc : (fsLookup fs (ci.base.ibs_package ++ ".changes")).isSome = true
          all_goals
            simp [write_files_to_folder, hbt, config_sh, hs, hce, hc] at h
          all_goals
            refine ⟨[ci.base.ibs_package ++ ".kiwi"],
              [(ci.base.ibs_package ++ ".kiwi", FileContent.text rk)],
              Or.inr (Or.inr ⟨rfl, hs, hce, rfl, rfl⟩), ?_, ?_⟩
          · rw [← h.1]; simp [hc]
          · rw [← h.2]; simp [hc]
          · rw [← h.1]; simp [hc]
          · rw [← h.2]; simp [hc]
        · exfalso
          simp [write_files_to_folder, hbt, config_sh, hs, hce] at h
      · by_cases hc : (fsLookup fs (ci.base.ibs_package ++ ".changes")).isSome = true
        all_goals
          simp [write_files_to_folder, hbt, config_sh, hs, hc,
            config_sh_full_ne_empty yr ci.base.config_sh_script] at h
        all_goals
          refine ⟨[ci.base.ibs_package ++ ".kiwi", "config.sh"],
            [(ci.base.ibs_package ++ ".kiwi", FileContent.text rk),
              ("config.sh",
                FileContent.text (config_sh_full yr ci.base.config_sh_script))],
            Or.inr (Or.inl ⟨rfl, hs, rfl, rfl⟩), ?_, ?_⟩
        · rw [← h.1]; simp [hc]
        · rw [← h.2]; simp [hc]
        · rw [← h.1]; simp [hc]
        · rw [← h.2]; simp [hc]

/-- C2: whenever the write operation returns, its returned filename list is
exactly: _service always; Dockerfile precisely for a Docker recipe; the kiwi
description, plus config.sh when the config.sh script is non-empty, precisely
for a kiwi recipe; the changelog precisely when it did not exist in the
destination; and every key of extra_files, in this order. -/
theorem write_files_returned_list (ci : ContainerImage) (rd rk rs yr : String)
    (fs : List (String × FileContent)) (files : List String)
    (writes : List (String × FileContent))
    (h : write_files_to_folder ci rd rk rs yr fs = Except.ok (files, writes)) :
    files = ["_service"]
      ++ (if ci.base.build_recipe_type = BuildType.docker then ["Dockerfile"] else [])
      ++ (if ci.base.build_recipe_type = BuildType.kiwi then
            [ci.base.ibs_package ++ ".kiwi"]
              ++ (if ci.base.config_sh_script ≠ "" then ["config.sh"] else [])
          else [])
      ++ (if (fsLookup fs (ci.base.ibs_package ++ ".changes")).isSome then []
          else [ci.base.ibs_package ++ ".changes"])
      ++ ci.base.extra_files.map Prod.fst := by
  obtain ⟨rn, rw_, hcase, hf, _⟩ := write_files_ok_eq ci rd rk rs yr fs files writes h
  rcases hcase with ⟨hbt, hrn, _⟩ | ⟨hbt, hs, hrn, _⟩ | ⟨hbt, hs, _, hrn, _⟩
  · subst hrn
    rw [hf, hbt]
    simp
  · subst hrn
    rw [hf, hbt]
    simp [hs]
  · subst hrn
    rw [hf, hbt]
    simp [hs]

/-- C2 witness: the filename list returned for a concrete kiwi descriptor
with a config.sh script, one extra file and an empty destination. -/
theorem write_files_returned_list_witness :
    (["_service", "k.kiwi", "config.sh", "k.changes", "_constraints"] : List String)
      = ["_service"]
        ++ (if kiwiScriptImage.base.build_recipe_type = BuildType.docker
            then ["Dockerfile"] else [])
        ++ (if kiwiScriptImage.base.build_recipe_type = BuildType.kiwi then
              [kiwiScriptImage.base.ibs_package ++ ".kiwi"]
                ++ (if kiwiScriptImage.base.config_sh_script ≠ ""
                    then ["config.sh"] else [])
            else [])
        ++ (if (fsLookup [] (kiwiScriptImage.base.ibs_package ++ ".changes")).isSome
            then [] else [kiwiScriptImage.base.ibs_package ++ ".changes"])
        ++ kiwiScriptImage.base.extra_files.map Prod.fst :=
  write_files_returned_list kiwiScriptImage "D" "K" "S" "2024" []
    ["_service", "k.kiwi", "config.sh", "k.changes", "_constraints"]
    [("k.kiwi", FileContent.text "K"),
     ("config.sh", FileContent.text (config_sh_full "2024" "echo hi")),
     ("_service", FileContent.text "S"),
     ("k.changes", FileContent.text ""),
     ("_constraints", FileContent.text "c")]
    rfl

/-- C6 amended: provided the descriptor's extra_files does not itself hold a
file named like the changelog, the write operation leaves an existing
changelog unchanged and omits it from the returned list, and creates it with
empty content when it does not exist. -/
theorem changelog_frame (ci : ContainerImage) (rd rk rs yr : String)
    (fs : List (String × FileContent)) (files : List String)
    (writes : List (String × FileContent))
    (h : write_files_to_folder ci rd rk rs yr fs = Except.ok (files, writes))
    (hextra : ∀ kv ∈ ci.base.extra_files, kv.1 ≠ ci.base.ibs_package ++ ".changes") :
    ((fsLookup fs (ci.base.ibs_package ++ ".changes")).isSome = true →
      fsLookup (applyWrites fs writes) (ci.base.ibs_package ++ ".changes")
          = fsLookup fs (ci.base.ibs_package ++ ".changes") ∧
      ci.base.ibs_package ++ ".changes" ∉ files) ∧
    ((fsLookup fs (ci.base.ibs_package ++ ".changes")).isSome = false →
      fsLookup (applyWrites fs writes) (ci.base.ibs_package ++ ".changes")
          = some (FileContent.text "")) := by
  obtain ⟨rn, rw_, hcase, hf, hw⟩ := write_files_ok_eq ci rd rk rs yr fs files writes h
  have key : (∀ x ∈ rn, x ≠ ci.base.ibs_package ++ ".changes") ∧
      (∀ w ∈ rw_, w.1 ≠ ci.base.ibs_package ++ ".changes") := by
    rcases hcase with ⟨_, hrn, hrw⟩ | ⟨_, _, hrn, hrw⟩ | ⟨_, _, _, hrn, hrw⟩
    · subst hrn
      subst hrw
      refine ⟨?_, ?_⟩ <;>
      · intro x hx
        simp only [List.mem_singleton] at hx
        subst hx
        exact (changes_ne_dockerfile ci.base.ibs_package).symm
    · subst hrn
      subst hrw
      constructor
      · intro x hx
        simp only [List.mem_cons, List.mem_singleton, List.not_mem_nil,
          or_false] at hx
        rcases hx with hx | hx <;> subst hx
        · exact (changes_ne_kiwi ci.base.ibs_package ci.base.ibs_package).symm
        · exact (changes_ne_configsh ci.base.ibs_package).symm
      · intro w hwm
        simp only [List.mem_cons, List.mem_singleton, List.not_mem_nil,
          or_false] at hwm
        rcases hwm with hwm | hwm <;> subst hwm
        · exact (changes_ne_kiwi ci.base.ibs_package ci.base.ibs_package).symm
        · exact (changes_ne_configsh ci.base.ibs_package).symm
    · subst hrn
      subst hrw
      refine ⟨?_, ?_⟩ <;>
      · intro x hx
        simp only [List.mem_singleton] at hx
        subst hx
        exact (changes_ne_kiwi ci.base.ibs_package ci.base.ibs_package).symm
  obtain ⟨hrn_ne, hrw_ne⟩ := key
  constructor
  · intro hex
    constructor
    · apply fsLookup_applyWrites_of_miss
      intro w hwm
      rw [hw] at hwm
      simp only [hex, if_true, List.append_assoc, List.mem_append,
        List.mem_singleton, List.nil_append] at hwm
      rcases hwm with hwm | hwm | hwm
      · exact hrw_ne w hwm
      · subst hwm
        exact (changes_ne_service ci.base.ibs_package).symm
      · exact hextra w hwm
    · rw [hf]
      intro hmem
      simp only [hex, if_true, List.append_nil, List.mem_cons,
        List.mem_append, List.mem_map] at hmem
      rcases hmem with hmem | hmem | hmem
      · exact (changes_ne_service ci.base.ibs_package).symm hmem.symm
      · exact hrn_ne _ hmem rfl
      · obtain ⟨kv, hkv, hkv1⟩ := hmem
        exact hextra kv hkv hkv1
  · intro hnex
    have hws : writes = (rw_ ++ [("_service", FileContent.text rs)])
        ++ ((ci.base.ibs_package ++ ".changes", FileContent.text "")
            :: ci.base.extra_files) := by
      rw [hw]
      simp [hnex]
    rw [hws, applyWrites_append]
    exact fsLookup_applyWrites_hit (ci.base.ibs_package ++ ".changes")
      (FileContent.text "") ci.base.extra_files _ hextra

/-- C6 witness: for a concrete descriptor without colliding extra files and a
destination already holding changelog history, the history is kept and the
changelog is not in the returned list. -/
theorem changelog_frame_witness :
    fsLookup (applyWrites historyDir
        [("Dockerfile", FileContent.text "D"), ("_service", FileContent.text "S")])
        (plainOsImage.base.ibs_package ++ ".changes")
      = fsLookup historyDir (plainOsImage.base.ibs_package ++ ".changes") ∧
    plainOsImage.base.ibs_package ++ ".changes"
      ∉ (["_service", "Dockerfile"] : List String) :=
  (changelog_frame plainOsImage "D" "K" "S" "2024" historyDir
      ["_service", "Dockerfile"]
      [("Dockerfile", FileContent.text "D"), ("_service", FileContent.text "S")]
      rfl (by intro kv hkv
              exact absurd hkv
                (by simp [plainOsImage, plainOsBase, ContainerImage.base]))).1
    (by decide)

/-- C6 counterexample: a constructible descriptor whose extra_files holds a
file named like its changelog: the changelog name is in the returned list and
its content is overwritten although the file already existed. -/
theorem changelog_collision_cex :
    post_init collisionImage = Except.ok collisionImage ∧
    (fsLookup collisionDir ("foo.changes")).isSome = true ∧
    (∃ files writes,
      write_files_to_folder collisionImage "D" "K" "S" "2024" collisionDir
          = Except.ok (files, writes) ∧
      ("foo.changes" : String) ∈ files ∧
      fsLookup (applyWrites collisionDir writes) "foo.changes"
          = some (FileContent.text "new")) :=
  ⟨rfl, rfl, ⟨_, _, rfl, by decide, by decide⟩⟩

end BciBuild
